import Mathlib

/-!
Verification of the token-bucket rate limiter (grape-law-firm/token-bucket).

The repository ships only its documentation (README.md) and build
configuration under src/; the TypeScript implementation file (index.ts,
the entry point named by tsup.config.ts) is not present. All definitions
below are therefore modelled from the specification and the README: time
is an explicit natural-number timestamp in milliseconds, the recurring
timer is modelled as explicit refill-tick events carrying the current
time, and promise resolution is modelled as an explicit list of
completion records emitted by each operation. Token counts and request
amounts are natural numbers; the optional initialTokens constructor
parameter is an integer so that clamping to [0, capacity] is meaningful.
-/

/-- Modelled from the spec: a pending asynchronous consumption request
("waiter"), holding the requested amount and a completion handle
(modelled as a numeric id). -/
structure Waiter where
  id : Nat
  amount : Nat
deriving Repr, DecidableEq

/-- Modelled from the spec: resolution of the deferred result of a waiter;
`result` is the boolean the suspended caller receives. -/
structure Completion where
  id : Nat
  result : Bool
deriving Repr, DecidableEq

/-- Modelled from the spec: the TokenBucket state. `capacity`,
`fillPerWindow` and `windowInMs` are the immutable configuration;
`tokens` is the current count, `running` the timer state,
`forceStopUntil` the optional suppression deadline, `waiters` the FIFO
queue of pending asynchronous requests, and `nextWaiterId` a counter
providing fresh completion handles. `verbose` is purely observational. -/
structure TokenBucket where
  capacity : Nat
  fillPerWindow : Nat
  windowInMs : Nat
  tokens : Nat
  running : Bool
  forceStopUntil : Option Nat
  waiters : List Waiter
  nextWaiterId : Nat
  verbose : Bool
deriving Repr, DecidableEq

/-- Modelled from the spec: the constructor options object
(TokenBucketOptions in the README). `initialTokens` is optional and
defaults to the capacity. -/
structure TokenBucketOptions where
  capacity : Nat
  fillPerWindow : Nat
  windowInMs : Nat
  initialTokens : Option Int := none
deriving Repr, DecidableEq

namespace TokenBucket

/-- Modelled from the spec: construction. Initial tokens are
`initialTokens` (default `capacity`) clamped to `[0, capacity]`; the
bucket starts with no force-stop window and an empty waiter queue, in
the "not yet running" state (the spec leaves the initial timer state as
left to the implementer; `start` arms the timer). -/
def construct (opts : TokenBucketOptions) (verbose : Bool := false) : TokenBucket :=
  { capacity := opts.capacity
    fillPerWindow := opts.fillPerWindow
    windowInMs := opts.windowInMs
    tokens := (min (opts.capacity : Int) (opts.initialTokens.getD opts.capacity)).toNat
    running := false
    forceStopUntil := none
    waiters := []
    nextWaiterId := 0
    verbose := verbose }

/-- Modelled from the spec: arm the refill timer (idempotent). -/
def start (b : TokenBucket) : TokenBucket :=
  { b with running := true }

/-- Modelled from the spec: disarm the refill timer (idempotent);
pending waiters stay queued. -/
def stop (b : TokenBucket) : TokenBucket :=
  { b with running := false }

/-- Modelled from the spec: synchronous consumption. Atomically checks
`tokens >= amount`; on success decrements and returns true, otherwise
returns false leaving the state untouched. `amount` defaults to 1. -/
def consume (b : TokenBucket) (amount : Nat := 1) : Bool × TokenBucket :=
  if amount ≤ b.tokens then
    (true, { b with tokens := b.tokens - amount })
  else
    (false, b)

/-- Modelled from the spec: service the waiter queue in FIFO order.
Each head waiter whose amount is satisfiable is completed with success
and its amount deducted; processing stops at the first head waiter that
cannot be satisfied. Returns the remaining tokens, the remaining queue
and the emitted completions. -/
def processWaiters : Nat → List Waiter → Nat × List Waiter × List Completion
  | tokens, [] => (tokens, [], [])
  | tokens, w :: ws =>
    if w.amount ≤ tokens then
      let r := processWaiters (tokens - w.amount) ws
      (r.1, r.2.1, ⟨w.id, true⟩ :: r.2.2)
    else
      (tokens, w :: ws, [])

/-- Modelled from the spec: one refill tick at wall-clock time `now`.
A stopped timer fires no ticks, so a tick on a non-running bucket is a
no-op. While `now` is before `forceStopUntil` the tick is skipped
entirely. Otherwise `fillPerWindow` tokens are added, clamped at
`capacity` (excess is discarded, never carried over), any expired
force-stop window is cleared, and the waiter queue is serviced. -/
def refillTick (now : Nat) (b : TokenBucket) : TokenBucket × List Completion :=
  if b.running then
    match b.forceStopUntil with
    | some t =>
      if now < t then
        (b, [])
      else
        let filled := min b.capacity (b.tokens + b.fillPerWindow)
        let r := processWaiters filled b.waiters
        ({ b with tokens := r.1, waiters := r.2.1, forceStopUntil := none }, r.2.2)
    | none =>
      let filled := min b.capacity (b.tokens + b.fillPerWindow)
      let r := processWaiters filled b.waiters
      ({ b with tokens := r.1, waiters := r.2.1 }, r.2.2)
  else
    (b, [])

/-- Modelled from the spec: the deferred result of `consumeAsync`:
either resolved immediately with a boolean, or suspended as the waiter
with the given id. -/
inductive AsyncResult where
  | immediate (result : Bool)
  | pending (id : Nat)
deriving Repr, DecidableEq

/-- Modelled from the spec: asynchronous consumption. If `amount` can be
satisfied immediately, tokens are decremented and the result resolves to
success with no suspension; otherwise a waiter is enqueued at the tail
of the FIFO queue and the caller suspends until a later tick services
it. -/
def consumeAsync (b : TokenBucket) (amount : Nat := 1) : AsyncResult × TokenBucket :=
  if amount ≤ b.tokens then
    (.immediate true, { b with tokens := b.tokens - amount })
  else
    (.pending b.nextWaiterId,
     { b with waiters := b.waiters ++ [⟨b.nextWaiterId, amount⟩],
              nextWaiterId := b.nextWaiterId + 1 })

/-- Modelled from the spec: the force-stop operation (the README spells
it `forceWaitUntilMilisecondsPassed`). Sets `forceStopUntil` to
`now + delayInMs`, overwriting any previous window; tokens and the
waiter queue are untouched. -/
def forceWaitUntilMilisecondsPassed (b : TokenBucket) (now delayInMs : Nat) : TokenBucket :=
  { b with forceStopUntil := some (now + delayInMs) }

/-- Modelled from the spec: the external events a bucket can undergo
after construction. Tick and force-stop events carry the wall-clock
time at which they occur. -/
inductive Event where
  | tick (now : Nat)
  | consumeEv (amount : Nat)
  | consumeAsyncEv (amount : Nat)
  | forceWait (now delayInMs : Nat)
  | startEv
  | stopEv
deriving Repr, DecidableEq

/-- Modelled from the spec: apply one event, returning the new state and
the completions emitted to suspended callers by that event. -/
def stepOut (b : TokenBucket) : Event → TokenBucket × List Completion
  | .tick now => refillTick now b
  | .consumeEv a => ((consume b a).2, [])
  | .consumeAsyncEv a => ((consumeAsync b a).2, [])
  | .forceWait now d => (forceWaitUntilMilisecondsPassed b now d, [])
  | .startEv => (start b, [])
  | .stopEv => (stop b, [])

/-- State after one event, discarding the emitted completions. -/
def applyEvent (b : TokenBucket) (e : Event) : TokenBucket :=
  (stepOut b e).1

/-- State after a sequence of events. -/
def run (b : TokenBucket) (es : List Event) : TokenBucket :=
  es.foldl applyEvent b

/-- Servicing the waiter queue never increases the token count. -/
theorem processWaiters_fst_le (t : Nat) (ws : List Waiter) :
    (processWaiters t ws).1 ≤ t := by
  induction ws generalizing t with
  | nil => simp [processWaiters]
  | cons w ws ih =>
    simp only [processWaiters]
    split
    · exact le_trans (ih (t - w.amount)) (Nat.sub_le _ _)
    · exact le_refl t

/-- The waiters serviced by one sweep form a prefix of the queue: the
completions are exactly the first `k` waiters, each completed with
success, and the remaining queue is the corresponding suffix. -/
theorem processWaiters_take_drop (t : Nat) (ws : List Waiter) :
    ∃ k, (processWaiters t ws).2.2
        = (ws.take k).map (fun w => Completion.mk w.id true)
      ∧ (processWaiters t ws).2.1 = ws.drop k := by
  induction ws generalizing t with
  | nil => exact ⟨0, by simp [processWaiters]⟩
  | cons w ws ih =>
    simp only [processWaiters]
    split
    · obtain ⟨k, hc, hr⟩ := ih (t - w.amount)
      exact ⟨k + 1, by simp [hc, hr]⟩
    · exact ⟨0, by simp⟩

/-- Clamping at `c`, adding, and clamping again is the same as clamping
once at the end. -/
theorem min_add_min (c x y : Nat) : min c (min c x + y) = min c (x + y) := by
  rcases Nat.le_total c x with h | h
  · rw [Nat.min_eq_left h]
    have h1 : c ≤ x + y := le_trans h (Nat.le_add_right x y)
    have h2 : c ≤ c + y := Nat.le_add_right c y
    rw [Nat.min_eq_left h1, Nat.min_eq_left h2]
  · rw [Nat.min_eq_right h]

/-- One event preserves the token bound `tokens ≤ capacity`. -/
theorem tokens_le_capacity_applyEvent (b : TokenBucket) (e : Event)
    (h : b.tokens ≤ b.capacity) : (applyEvent b e).tokens ≤ (applyEvent b e).capacity := by
  cases e with
  | tick now =>
    simp only [applyEvent, stepOut, refillTick]
    split
    · split
      · split
        · exact h
        · exact le_trans (processWaiters_fst_le _ _) (Nat.min_le_left _ _)
      · exact le_trans (processWaiters_fst_le _ _) (Nat.min_le_left _ _)
    · exact h
  | consumeEv a =>
    simp only [applyEvent, stepOut, consume]
    split
    · exact le_trans (Nat.sub_le _ _) h
    · exact h
  | consumeAsyncEv a =>
    simp only [applyEvent, stepOut, consumeAsync]
    split
    · exact le_trans (Nat.sub_le _ _) h
    · exact h
  | forceWait now d => exact h
  | startEv => exact h
  | stopEv => exact h

/-- Every reachable state satisfies the token bound. -/
theorem tokens_le_capacity_run (b : TokenBucket) (es : List Event)
    (h : b.tokens ≤ b.capacity) : (run b es).tokens ≤ (run b es).capacity := by
  induction es generalizing b with
  | nil => exact h
  | cons e es ih => exact ih (applyEvent b e) (tokens_le_capacity_applyEvent b e h)

/-- The constructed bucket satisfies the token bound. -/
theorem construct_tokens_le (opts : TokenBucketOptions) (verbose : Bool) :
    (construct opts verbose).tokens ≤ (construct opts verbose).capacity := by
  exact Int.toNat_le.mpr (min_le_left _ _)

/-- Events never change the capacity. -/
theorem capacity_applyEvent (b : TokenBucket) (e : Event) :
    (applyEvent b e).capacity = b.capacity := by
  cases e with
  | tick now =>
    simp only [applyEvent, stepOut, refillTick]
    split
    · split
      · split <;> rfl
      · rfl
    · rfl
  | consumeEv a =>
    simp only [applyEvent, stepOut, consume]
    split <;> rfl
  | consumeAsyncEv a =>
    simp only [applyEvent, stepOut, consumeAsync]
    split <;> rfl
  | forceWait now d => rfl
  | startEv => rfl
  | stopEv => rfl

/-- Event sequences never change the capacity. -/
theorem capacity_run (b : TokenBucket) (es : List Event) :
    (run b es).capacity = b.capacity := by
  induction es generalizing b with
  | nil => rfl
  | cons e es ih => rw [run, List.foldl_cons, ← run, ih, capacity_applyEvent]

/-- On a running bucket with no force-stop window and no waiters, a
sequence of refill ticks accrues `fillPerWindow` per tick, clamped once
at capacity. -/
theorem run_ticks_tokens (nows : List Nat) (b : TokenBucket)
    (hrun : b.running = true) (hfs : b.forceStopUntil = none) (hw : b.waiters = [])
    (ht : b.tokens ≤ b.capacity) :
    (run b (nows.map Event.tick)).tokens
      = min b.capacity (b.tokens + nows.length * b.fillPerWindow) := by
  induction nows generalizing b with
  | nil => simp [run, Nat.min_eq_right ht]
  | cons now rest ih =>
    have hstep : applyEvent b (Event.tick now)
        = { b with tokens := min b.capacity (b.tokens + b.fillPerWindow) } := by
      simp [applyEvent, stepOut, refillTick, hrun, hfs, hw, processWaiters]
    rw [List.map_cons, run, List.foldl_cons, ← run, hstep,
      ih { b with tokens := min b.capacity (b.tokens + b.fillPerWindow) } hrun hfs hw
        (Nat.min_le_left _ _)]
    show min b.capacity (min b.capacity (b.tokens + b.fillPerWindow)
        + rest.length * b.fillPerWindow) = _
    rw [min_add_min]
    congr 1
    rw [List.length_cons]
    ring

/-- Claim C1: in every reachable state — after construction and after
any sequence of operations (refill ticks, consume, consumeAsync,
force-stop, start, stop) — the token count satisfies
`0 <= tokens <= capacity`. -/
theorem C1_tokens_bounded (opts : TokenBucketOptions) (verbose : Bool) (es : List Event) :
    0 ≤ (run (construct opts verbose) es).tokens
      ∧ (run (construct opts verbose) es).tokens ≤ (run (construct opts verbose) es).capacity :=
  ⟨Nat.zero_le _, tokens_le_capacity_run _ es (construct_tokens_le opts verbose)⟩

/-- Claim C2: `consume amount` returns true and decrements the tokens by
exactly `amount` when `tokens >= amount`, and otherwise returns false
leaving the entire state unchanged; the amount defaults to 1. -/
theorem C2_consume_spec (b : TokenBucket) (amount : Nat) :
    (amount ≤ b.tokens →
      consume b amount = (true, { b with tokens := b.tokens - amount }))
    ∧ (b.tokens < amount → consume b amount = (false, b))
    ∧ consume b = consume b 1 := by
  refine ⟨fun h => ?_, fun h => ?_, rfl⟩
  · rw [consume, if_pos h]
  · rw [consume, if_neg (Nat.not_le.mpr h)]

/-- Witness for C2 at a concrete bucket: a satisfiable request succeeds
and deducts, an unsatisfiable one fails and changes nothing. -/
theorem C2_consume_spec_witness :
    (3 ≤ (construct ⟨10, 1, 1000, none⟩ false).tokens
      ∧ consume (construct ⟨10, 1, 1000, none⟩ false) 3
        = (true, { construct ⟨10, 1, 1000, none⟩ false with
                    tokens := (construct ⟨10, 1, 1000, none⟩ false).tokens - 3 }))
    ∧ ((construct ⟨10, 1, 1000, none⟩ false).tokens < 11
      ∧ consume (construct ⟨10, 1, 1000, none⟩ false) 11
        = (false, construct ⟨10, 1, 1000, none⟩ false)) :=
  ⟨⟨by decide, (C2_consume_spec (construct ⟨10, 1, 1000, none⟩ false) 3).1 (by decide)⟩,
   ⟨by decide, (C2_consume_spec (construct ⟨10, 1, 1000, none⟩ false) 11).2.1 (by decide)⟩⟩

/-- Claim C3: starting from a freshly constructed bucket (running, not
force-stopped, no waiters) and performing `n` refill ticks with no
consumption in between, the tokens equal
`min capacity (initialTokens + n * fillPerWindow)`, where the initial
tokens are the constructed (clamped) value; excess discarded by the
clamp is never carried to a later tick. -/
theorem C3_refill_accrual (opts : TokenBucketOptions) (verbose : Bool) (nows : List Nat) :
    (run (start (construct opts verbose)) (nows.map Event.tick)).tokens
      = min opts.capacity
          ((construct opts verbose).tokens + nows.length * opts.fillPerWindow) :=
  run_ticks_tokens nows (start (construct opts verbose)) rfl rfl rfl
    (construct_tokens_le opts verbose)

/-- Claim C4: a refill tick that fires strictly before `forceStopUntil`
is skipped entirely, leaving the whole state (tokens included)
unchanged and emitting no completions; a tick at or after the deadline
resumes accrual with a single `fillPerWindow` addition (no catch-up of
the skipped ticks) and clears the expired window. -/
theorem C4_force_stop_tick (b : TokenBucket) (now t : Nat) :
    (b.forceStopUntil = some t → now < t → refillTick now b = (b, []))
    ∧ (b.forceStopUntil = some t → t ≤ now → b.running = true → b.waiters = [] →
        (refillTick now b).1.tokens = min b.capacity (b.tokens + b.fillPerWindow)
        ∧ (refillTick now b).1.forceStopUntil = none) := by
  constructor
  · intro hfs hlt
    rw [refillTick, hfs]
    simp only [hlt, if_true]
    split <;> rfl
  · intro hfs hle hrun hw
    rw [refillTick, hfs, hrun]
    simp [Nat.not_lt.mpr hle, hw, processWaiters]

/-- Witness for C4: with a force-stop window ending at time 100, a tick
at time 50 is a no-op and a tick at time 150 refills once. -/
theorem C4_force_stop_tick_witness :
    (refillTick 50
        (forceWaitUntilMilisecondsPassed (start (construct ⟨10, 1, 1000, some 0⟩ false)) 0 100)
      = (forceWaitUntilMilisecondsPassed (start (construct ⟨10, 1, 1000, some 0⟩ false)) 0 100, []))
    ∧ ((refillTick 150
        (forceWaitUntilMilisecondsPassed (start (construct ⟨10, 1, 1000, some 0⟩ false)) 0 100)).1.tokens
      = min 10 (0 + 1)
      ∧ (refillTick 150
        (forceWaitUntilMilisecondsPassed (start (construct ⟨10, 1, 1000, some 0⟩ false)) 0 100)).1.forceStopUntil
      = none) :=
  ⟨(C4_force_stop_tick _ 50 100).1 (by decide) (by decide),
   (C4_force_stop_tick _ 150 100).2 (by decide) (by decide) (by decide) (by decide)⟩

/-- Claim C5: waiters are serviced in strict arrival (FIFO) order: one
sweep completes exactly a prefix of the queue, each with success; an
unsatisfiable head waiter stops the sweep with nothing serviced and the
queue untouched (no head-of-line bypass); a satisfiable head is serviced
first; and a refill tick services the queue exactly through this sweep
on the post-fill token count. -/
theorem C5_fifo (t : Nat) (ws : List Waiter) :
    (∃ k, (processWaiters t ws).2.2 = (ws.take k).map (fun w => Completion.mk w.id true)
        ∧ (processWaiters t ws).2.1 = ws.drop k)
    ∧ (∀ w rest, ws = w :: rest → t < w.amount → processWaiters t ws = (t, ws, []))
    ∧ (∀ w rest, ws = w :: rest → w.amount ≤ t →
        ∃ cs, (processWaiters t ws).2.2 = Completion.mk w.id true :: cs)
    ∧ (∀ b now, b.running = true → b.forceStopUntil = none →
        (refillTick now b).2
          = (processWaiters (min b.capacity (b.tokens + b.fillPerWindow)) b.waiters).2.2
        ∧ (refillTick now b).1.waiters
          = (processWaiters (min b.capacity (b.tokens + b.fillPerWindow)) b.waiters).2.1) := by
  refine ⟨processWaiters_take_drop t ws, ?_, ?_, ?_⟩
  · rintro w rest rfl hlt
    rw [processWaiters, if_neg (Nat.not_le.mpr hlt)]
  · rintro w rest rfl hle
    rw [processWaiters, if_pos hle]
    exact ⟨_, rfl⟩
  · intro b now hrun hfs
    rw [refillTick, hrun, hfs]
    exact ⟨rfl, rfl⟩

/-- Witness for C5, the fairness scenario of the spec: with 5 tokens on hand,
a head waiter asking for 10 blocks a later waiter asking for 1 — the
sweep services nothing and both stay queued. -/
theorem C5_fifo_witness :
    (5 : Nat) < (Waiter.mk 0 10).amount
    ∧ processWaiters 5 [Waiter.mk 0 10, Waiter.mk 1 1]
      = (5, [Waiter.mk 0 10, Waiter.mk 1 1], []) :=
  ⟨by decide,
   (C5_fifo 5 [Waiter.mk 0 10, Waiter.mk 1 1]).2.1 (Waiter.mk 0 10) [Waiter.mk 1 1]
     rfl (by decide)⟩

/-- Claim C6: a waiter is never completed with failure: every completion
any event emits carries result true, every waiter queued before an event
is either still queued after it or was completed with success, and
`consumeAsync` never resolves to an immediate failure — a caller it
suspends stays pending until serviced with success. -/
theorem C6_waiters_never_failed (b : TokenBucket) (e : Event) :
    (∀ c, c ∈ (stepOut b e).2 → c.result = true)
    ∧ (∀ w, w ∈ b.waiters →
        w ∈ (stepOut b e).1.waiters ∨ Completion.mk w.id true ∈ (stepOut b e).2)
    ∧ (∀ a, (consumeAsync b a).1 ≠ AsyncResult.immediate false) := by
  have hsweep : ∀ t, (∀ c, c ∈ (processWaiters t b.waiters).2.2 → c.result = true)
      ∧ (∀ w, w ∈ b.waiters →
          w ∈ (processWaiters t b.waiters).2.1
          ∨ Completion.mk w.id true ∈ (processWaiters t b.waiters).2.2) := by
    intro t
    obtain ⟨k, hc, hr⟩ := processWaiters_take_drop t b.waiters
    constructor
    · intro c hmem
      rw [hc] at hmem
      obtain ⟨w, _, rfl⟩ := List.mem_map.mp hmem
      rfl
    · intro w hmem
      rw [hc, hr]
      rcases List.mem_append.mp ((List.take_append_drop k b.waiters) ▸ hmem) with h | h
      · exact Or.inr (List.mem_map_of_mem _ h)
      · exact Or.inl h
  have hasync : ∀ a, (consumeAsync b a).1 ≠ AsyncResult.immediate false := by
    intro a
    rw [consumeAsync]
    split <;> simp
  refine ⟨?_, ?_, hasync⟩ <;>
  · cases e with
    | tick now =>
      rw [stepOut, refillTick]
      split
      · split
        · split
          · simp
          · first
            | exact (hsweep _).1
            | exact fun w hw => (hsweep _).2 w hw
        · first
          | exact (hsweep _).1
          | exact fun w hw => (hsweep _).2 w hw
      · simp
    | consumeEv a =>
      rw [stepOut, consume]
      split <;> simp
    | consumeAsyncEv a =>
      rw [stepOut, consumeAsync]
      split
      · simp
      · intro w hw
        first
        | exact absurd hw (by simp)
        | exact Or.inl (List.mem_append_left _ hw)
    | forceWait now d => simp [stepOut, forceWaitUntilMilisecondsPassed]
    | startEv => simp [stepOut, start]
    | stopEv => simp [stepOut, stop]

/-- Witness for C6: an enqueued waiter for 5 tokens survives a tick that
cannot satisfy it, still queued and not failed. -/
theorem C6_waiters_never_failed_witness :
    Waiter.mk 0 5 ∈ ((consumeAsync (start (construct ⟨10, 1, 1000, some 0⟩ false)) 5).2).waiters
    ∧ (Waiter.mk 0 5 ∈
        (stepOut ((consumeAsync (start (construct ⟨10, 1, 1000, some 0⟩ false)) 5).2)
          (Event.tick 7)).1.waiters
      ∨ Completion.mk 0 true ∈
        (stepOut ((consumeAsync (start (construct ⟨10, 1, 1000, some 0⟩ false)) 5).2)
          (Event.tick 7)).2) :=
  ⟨by decide,
   (C6_waiters_never_failed ((consumeAsync (start (construct ⟨10, 1, 1000, some 0⟩ false)) 5).2)
      (Event.tick 7)).2.1 (Waiter.mk 0 5) (by decide)⟩

/-- Claim C7: a request for strictly more than the capacity fails in
every reachable state, and keeps failing after any further refill
ticks — it can never succeed. -/
theorem C7_over_capacity_fails (opts : TokenBucketOptions) (verbose : Bool)
    (es : List Event) (nows : List Nat) (amount : Nat)
    (h : opts.capacity < amount) :
    (consume (run (construct opts verbose) (es ++ nows.map Event.tick)) amount).1 = false := by
  have hcap : (run (construct opts verbose) (es ++ nows.map Event.tick)).capacity
      = opts.capacity := capacity_run _ _
  have hle := tokens_le_capacity_run (construct opts verbose) (es ++ nows.map Event.tick)
    (construct_tokens_le opts verbose)
  rw [consume, if_neg (by omega)]

/-- Witness for C7: capacity 10, a request for 11 still fails after some
activity and two more refill ticks. -/
theorem C7_over_capacity_fails_witness :
    (TokenBucketOptions.mk 10 1 1000 none).capacity < 11
    ∧ (consume (run (construct ⟨10, 1, 1000, none⟩ false)
        ([Event.startEv, Event.consumeEv 3] ++ ([1000, 2000].map Event.tick))) 11).1 = false :=
  ⟨by decide,
   C7_over_capacity_fails ⟨10, 1, 1000, none⟩ false [Event.startEv, Event.consumeEv 3]
     [1000, 2000] 11 (by decide)⟩

/-- Claim C8: the force-stop operation sets `forceStopUntil` to
`now + delayInMs` whatever the previous window was (overwrite, not
additive stacking), and leaves the tokens, the waiter queue, and the
running flag unchanged. -/
theorem C8_forceWait_frame (b : TokenBucket) (now delayInMs : Nat) :
    (forceWaitUntilMilisecondsPassed b now delayInMs).forceStopUntil = some (now + delayInMs)
    ∧ (forceWaitUntilMilisecondsPassed b now delayInMs).tokens = b.tokens
    ∧ (forceWaitUntilMilisecondsPassed b now delayInMs).waiters = b.waiters
    ∧ (forceWaitUntilMilisecondsPassed b now delayInMs).running = b.running :=
  ⟨rfl, rfl, rfl, rfl⟩

/-- Claim C9: `start` and `stop` are idempotent, `stop` then `start` is
the same as a single `start` — tokens kept, waiters kept — and a stopped
bucket ignores refill ticks entirely. -/
theorem C9_start_stop (b : TokenBucket) (now : Nat) :
    start (start b) = start b
    ∧ stop (stop b) = stop b
    ∧ start (stop b) = start b
    ∧ (start (stop b)).tokens = b.tokens
    ∧ (start (stop b)).waiters = b.waiters
    ∧ refillTick now (stop b) = (stop b, []) :=
  ⟨rfl, rfl, rfl, rfl, rfl, rfl⟩

/-- Claim C10: construction clamps the initial tokens to
`[0, capacity]`: omitted `initialTokens` defaults to the capacity, an
in-range value is taken as is, a negative value clamps to 0, and a value
above the capacity clamps to the capacity; the initial tokens never
exceed the capacity. -/
theorem C10_construct_clamp (opts : TokenBucketOptions) (verbose : Bool) :
    (opts.initialTokens = none → (construct opts verbose).tokens = opts.capacity)
    ∧ (construct opts verbose).tokens ≤ opts.capacity
    ∧ (∀ i : Int, opts.initialTokens = some i →
        (i < 0 → (construct opts verbose).tokens = 0)
        ∧ (0 ≤ i → i ≤ opts.capacity → ((construct opts verbose).tokens : Int) = i)
        ∧ ((opts.capacity : Int) < i → (construct opts verbose).tokens = opts.capacity)) := by
  refine ⟨fun h => ?_, construct_tokens_le opts verbose, fun i h => ⟨fun hi => ?_, fun h0 hc => ?_, fun hi => ?_⟩⟩ <;>
    simp only [construct, h, Option.getD_some, Option.getD_none] <;> omega

/-- Witness for C10: with capacity 10, omitted initial tokens give 10,
-5 clamps to 0, 7 stays 7, 40 clamps to 10. -/
theorem C10_construct_clamp_witness :
    (construct ⟨10, 1, 1000, none⟩ false).tokens = 10
    ∧ (construct ⟨10, 1, 1000, some (-5)⟩ false).tokens = 0
    ∧ ((construct ⟨10, 1, 1000, some 7⟩ false).tokens : Int) = 7
    ∧ (construct ⟨10, 1, 1000, some 40⟩ false).tokens = 10 :=
  ⟨(C10_construct_clamp ⟨10, 1, 1000, none⟩ false).1 rfl,
   ((C10_construct_clamp ⟨10, 1, 1000, some (-5)⟩ false).2.2 (-5) rfl).1 (by decide),
   ((C10_construct_clamp ⟨10, 1, 1000, some 7⟩ false).2.2 7 rfl).2.1 (by decide) (by decide),
   ((C10_construct_clamp ⟨10, 1, 1000, some 40⟩ false).2.2 40 rfl).2.2 (by decide)⟩

end TokenBucket
